import Mathlib

/-!
# Verification of the invoice-ai-agent extraction review engine

Shallow embedding of the review-engine core of the `invoice-ai-agent`
repository: the confidence/status classifier and review-question builder
(`apps/worker/pipeline/services_ocr_llm.py`), the answer normalizer and
review-resolution endpoint (`apps/api/routes/invoices.py`), and the
reverse spreadsheet sync (`apps/worker/pipeline/storage.py`).

Python/JSON scalar values are modelled by `JValue` (containers do not occur
in the modelled flows); Python floats are modelled by exact rationals `ℚ`,
with Python `round` modelled as round-half-to-even on rationals.
-/

namespace InvoiceAI

/-- A JSON/Python scalar value, as carried in answer dicts, question
`current_value`s and dynamically-typed invoice columns. -/
inductive JValue where
  | null : JValue
  | bool : Bool → JValue
  | num : ℚ → JValue
  | str : String → JValue
deriving Repr, DecidableEq

/-- Python truthiness of a scalar (`bool(v)`). -/
def jtruthy : JValue → Bool
  | .null => false
  | .bool b => b
  | .num q => q ≠ 0
  | .str s => s ≠ ""

/-- Floor of a rational, computed on the normalised numerator/denominator
(`Int.fdiv` is floor division; `q.den > 0`), so that it evaluates inside
the kernel. -/
def ratFloor (q : ℚ) : ℤ := Int.fdiv q.num q.den

/-- Round-half-to-even on rationals: the rounding mode of Python `round`. -/
def roundHalfEven (q : ℚ) : ℤ :=
  let f : ℤ := ratFloor q
  let frac : ℚ := q - f
  if frac < 1/2 then f
  else if 1/2 < frac then f + 1
  else if f % 2 = 0 then f else f + 1

/-- Python `round(x, 2)` on the rational model of floats. -/
def round2 (q : ℚ) : ℚ := (roundHalfEven (q * 100) : ℚ) / 100

/-- Digits of a numeral string; `none` when a non-digit occurs or empty. -/
def digitsToNat (cs : List Char) : Option ℕ :=
  if cs = [] then none
  else if cs.all Char.isDigit then
    some (cs.foldl (fun a c => a * 10 + (c.toNat - 48)) 0)
  else none

/-- Parse a plain decimal literal (optional sign, digits, optional fraction),
the fragment of Python `float(str)` exercised by this code base (exponent
and infinity forms never occur in the modelled flows). -/
def parseDecimal (s : String) : Option ℚ :=
  let cs := s.trim.toList
  let signed : ℤ × List Char :=
    match cs with
    | '-' :: rest => (-1, rest)
    | '+' :: rest => (1, rest)
    | _ => (1, cs)
  let sign := signed.1
  let body := signed.2
  let intPart := body.takeWhile (fun c => c ≠ '.')
  match body.dropWhile (fun c => c ≠ '.') with
  | [] =>
    match digitsToNat intPart with
    | some n => some (sign * n)
    | none => none
  | _ :: fracPart =>
    match intPart, fracPart with
    | [], [] => none
    | [], _ =>
      match digitsToNat fracPart with
      | some fr => some (sign * ((fr : ℚ) / (10 ^ fracPart.length)))
      | none => none
    | _, [] =>
      match digitsToNat intPart with
      | some n => some (sign * n)
      | none => none
    | _, _ =>
      match digitsToNat intPart, digitsToNat fracPart with
      | some n, some fr =>
        some (sign * ((n : ℚ) + (fr : ℚ) / (10 ^ fracPart.length)))
      | _, _ => none

/-- Python `float(v)` on a scalar: numbers pass through, booleans become
0/1, decimal strings are parsed; `none` models `TypeError`/`ValueError`. -/
def pyFloat : JValue → Option ℚ
  | .null => none
  | .bool b => some (if b then 1 else 0)
  | .num q => some q
  | .str s => parseDecimal s

/-- `_coerce_bool` from `apps/api/routes/invoices.py`. -/
def coerce_bool : JValue → Option Bool
  | .null => none
  | .bool b => some b
  | .num q => some (decide (q ≠ 0))
  | .str s =>
    let t := s.trim.toLower
    if t = "true" ∨ t = "1" ∨ t = "yes" ∨ t = "y" then some true
    else if t = "false" ∨ t = "0" ∨ t = "no" ∨ t = "n" then some false
    else none

/-- `InvoiceStatus` enum from `apps/worker/pipeline/config.py`. -/
inductive InvoiceStatus where
  | ok
  | needs_review
  | error
  | pending
  | processing
deriving Repr, DecidableEq

/-- One review question, as built by `build_review_questions` (the dicts of
`services_ocr_llm.py` carry exactly these keys). -/
structure Question where
  field_name : String
  question : String
  input_type : String
  current_value : JValue := .null
  hint : Option String := none
  options : List (JValue × String) := []
deriving Repr, DecidableEq

/-- `InvoiceExtraction` dataclass from `services_ocr_llm.py`. -/
structure InvoiceExtraction where
  vendor : Option String := none
  date : Option String := none
  amount : Option ℚ := none
  currency : Option String := none
  tax_amount : Option ℚ := none
  category : Option String := none
  payment_method : Option String := none
  transaction_type : Option String := none
  is_paid : Option Bool := none
  ocr_confidence : Option ℚ := none
  extraction_confidence : Option ℚ := none
  status : InvoiceStatus := .needs_review
  review_reason : Option String := none
  review_questions : List Question := []
deriving Repr, DecidableEq

/-- Format a rational with two decimals (Python `f"{x:.2f}"`). -/
def format2 (q : ℚ) : String :=
  let c := roundHalfEven (q * 100)
  let n := c.natAbs
  let frac := n % 100
  (if c < 0 then "-" else "") ++ toString (n / 100) ++ "." ++
    (if frac < 10 then "0" ++ toString frac else toString frac)

/-- Format a rational as a percentage with no decimals (Python `f"{x:.0%}"`). -/
def formatPct (q : ℚ) : String := toString (roundHalfEven (q * 100)) ++ "%"

/-- The amount question of `build_review_questions`. -/
def amountQ : Question :=
  { field_name := "amount"
    question := "What is the total amount on this invoice?"
    input_type := "number"
    current_value := .null
    hint := some "Enter the final total including VAT (in AED unless stated otherwise)" }

/-- The date question of `build_review_questions`. -/
def dateQ : Question :=
  { field_name := "date"
    question := "What is the invoice date?"
    input_type := "date"
    current_value := .null
    hint := some "Format: DD/MM/YYYY (e.g., 15/03/2024)" }

/-- The vendor question of `build_review_questions` (echoes the current
vendor value). -/
def vendorQ (v : Option String) : Question :=
  { field_name := "vendor"
    question := "Who is the vendor or supplier?"
    input_type := "text"
    current_value := match v with | none => .null | some s => .str s
    hint := some "Company name as shown on the invoice" }

/-- The payment-status question of `build_review_questions`. -/
def isPaidQ : Question :=
  { field_name := "is_paid"
    question := "Has this invoice been paid?"
    input_type := "select"
    current_value := .null
    options := [(.bool true, "Yes, paid"),
                (.bool false, "No, still outstanding"),
                (.null, "Not sure")] }

/-- The category question of `build_review_questions` (full taxonomy). -/
def categoryQ : Question :=
  { field_name := "category"
    question := "What category does this expense belong to?"
    input_type := "select"
    current_value := .null
    options := [(.str "Occupancy & Facilities", "Occupancy & Facilities (rent, DEWA, Ejari)"),
                (.str "Telecom & Connectivity", "Telecom & Connectivity (Etisalat, du)"),
                (.str "Travel & Transport", "Travel & Transport (Salik, RTA, fuel)"),
                (.str "IT, Software & Cloud", "IT, Software & Cloud (AWS, subscriptions)"),
                (.str "Professional, Banking & Insurance", "Professional & Banking (licenses, insurance, PRO)"),
                (.str "Office Supplies", "Office Supplies"),
                (.str "Marketing & Advertising", "Marketing & Advertising"),
                (.str "Other Business Expenses", "Other Business Expenses")] }

/-- The last-resort confirm-or-correct question (formats the extracted
amount with two decimals). -/
def confirmQ (a : ℚ) : Question :=
  { field_name := "amount"
    question := "Please verify: is the total amount AED " ++ format2 a ++ "?"
    input_type := "confirm_or_correct"
    current_value := .num a
    hint := some "Confirm if correct, or enter the right amount" }

/-- Vendor test of `build_review_questions`:
`not result.vendor or result.vendor.strip() == ""`. -/
def vendor_blank : Option String → Bool
  | none => true
  | some s => s = "" ∨ s.trim = ""

/-- The five field-condition questions accumulated by
`build_review_questions`, in source order. -/
def review_question_items (r : InvoiceExtraction) : List Question :=
  (if r.amount = none then [amountQ] else []) ++
  (if r.date = none then [dateQ] else []) ++
  (if vendor_blank r.vendor then [vendorQ r.vendor] else []) ++
  (if r.is_paid = none then [isPaidQ] else []) ++
  (if r.category = none then [categoryQ] else [])

/-- The matching `reasons` entries accumulated by `build_review_questions`. -/
def review_reason_items (r : InvoiceExtraction) : List String :=
  (if r.amount = none then ["amount missing"] else []) ++
  (if r.date = none then ["date missing"] else []) ++
  (if vendor_blank r.vendor then ["vendor missing"] else []) ++
  (if r.is_paid = none then ["payment status unclear"] else []) ++
  (if r.category = none then ["category missing"] else [])

/-- The low-confidence confirm step of `build_review_questions`
(`conf = result.extraction_confidence or 0.0`, then append the
confirm-or-correct question when no other question fired); `none` models
the `TypeError` of formatting a `None` amount with `:.2f`. -/
def review_step (r : InvoiceExtraction) :
    Option (List Question × List String) :=
  if r.extraction_confidence.getD 0 < 0.5 ∧ review_question_items r = [] then
    match r.amount with
    | none => none
    | some a =>
      some (review_question_items r ++ [confirmQ a],
        review_reason_items r ++ ["low extraction confidence"])
  else some (review_question_items r, review_reason_items r)

/-- Reason string assembled at the end of `build_review_questions`. -/
def mkReason (rs : List String) : String :=
  if rs = [] then "Needs manual verification"
  else
    "Needs review: " ++ String.intercalate ", " (rs.take 3) ++
      (if rs.length > 3 then " (+" ++ toString (rs.length - 3) ++ " more)" else "")

/-- `build_review_questions` from `services_ocr_llm.py`. Returns `none` in
the one spot where the Python would raise: formatting `result.amount` in the
low-confidence confirm branch when `amount` is `None` (`TypeError` from
`f"{None:.2f}"`). -/
def build_review_questions (r : InvoiceExtraction) :
    Option (List Question × String) :=
  match review_step r with
  | none => none
  | some (qs, rsn) => some (qs.take 4, mkReason rsn)

/-- Vendor test of `_determine_status`: plain Python falsiness
(`not result.vendor`), with no `strip`. -/
def vendor_falsy : Option String → Bool
  | none => true
  | some s => s = ""

/-- The `issues` list collected by `_determine_status`. -/
def status_issues (r : InvoiceExtraction) : List String :=
  let conf := r.extraction_confidence.getD 0
  (if r.amount = none then ["no amount"] else []) ++
  (if r.date = none then ["no date"] else []) ++
  (if vendor_falsy r.vendor then ["no vendor"] else []) ++
  (if conf < 0.6 then ["low confidence (" ++ formatPct conf ++ ")"] else [])

/-- `_determine_status` from `services_ocr_llm.py`
(`conf = result.extraction_confidence or 0.0` is `getD 0`). -/
def determine_status (r : InvoiceExtraction) : InvoiceStatus × String :=
  if status_issues r ≠ [] then (.needs_review, String.intercalate ", " (status_issues r))
  else if 0.75 ≤ r.extraction_confidence.getD 0 then (.ok, "")
  else (.needs_review,
    "medium confidence (" ++ formatPct (r.extraction_confidence.getD 0) ++ ")")

/-- Final step of `extract_fields_with_llm` (lines 910-923): set the status
from `_determine_status`, then populate or clear the review questions. -/
def extract_finalize (r : InvoiceExtraction) : Option InvoiceExtraction :=
  match (determine_status r).1 with
  | .needs_review =>
    match build_review_questions r with
    | none => none
    | some (qs, rr) =>
      some { r with status := .needs_review, review_questions := qs,
                    review_reason := some rr }
  | st => some { r with status := st, review_questions := [], review_reason := none }

/-! ## Answer maps (Python dicts of answers) -/

/-- A Python dict of answers: association list keyed by field name, in
insertion order, with unique keys (dict semantics). -/
abbrev AMap := List (String × JValue)

/-- Dict key membership (`k in out`). -/
def acontains (m : AMap) (k : String) : Bool := m.any (fun p => p.1 = k)

/-- Dict `out.get(k)`: the stored value, `null` when the key is absent
(Python code only distinguishes presence via `acontains`, and absent vs
stored-`None` both read as `None`). -/
def aget (m : AMap) (k : String) : JValue :=
  match m.find? (fun p => p.1 = k) with
  | some p => p.2
  | none => .null

/-- Dict assignment `out[k] = v`: overwrite in place (first occurrence — the
only one, keys being unique), else append. -/
def aset : AMap → String → JValue → AMap
  | [], k, v => [(k, v)]
  | p :: t, k, v => if p.1 = k then (k, v) :: t else p :: aset t k v

/-- The keys of a dict, in insertion order. -/
def akeys (m : AMap) : List String := m.map Prod.fst

/-- `DEFAULT_VAT_RATE` from `apps/api/routes/invoices.py`. -/
def DEFAULT_VAT_RATE : ℚ := 0.05

/-- The `tax_amount` read of `_normalize_vat`: provided-and-non-empty
values must parse as numbers, null/empty means "not provided". -/
def parse_tax (rawTax : JValue) : Except String (Option ℚ) :=
  if rawTax ≠ .null ∧ rawTax ≠ .str "" then
    match pyFloat rawTax with
    | none => .error "tax_amount must be a number"
    | some t => .ok (some t)
  else .ok none

/-- `_normalize_vat` from `apps/api/routes/invoices.py`; `Except.error`
models `HTTPException(status_code=400, detail=...)`. In the inclusive
branch `entered_amount` is the `gross`. -/
def normalize_vat (answers : AMap) : Except String AMap :=
  if acontains answers "vat_inclusive" = true ∧
      coerce_bool (aget answers "vat_inclusive") = none then
    .error "vat_inclusive must be a boolean"
  else
    match coerce_bool (aget answers "vat_inclusive") with
    | none => .ok answers
    | some vi =>
      if aget answers "amount" = .null then
        .ok (aset answers "vat_inclusive" (.bool vi))
      else
        match pyFloat (aget answers "amount") with
        | none => .error "amount must be a number"
        | some entered_amount =>
          match parse_tax (aget answers "tax_amount") with
          | .error e => .error e
          | .ok tax_amount =>
            if vi then
              .ok (aset (aset (aset answers "amount" (.num (round2 entered_amount)))
                    "tax_amount" (.num (round2 (tax_amount.getD
                      (entered_amount - entered_amount / (1 + DEFAULT_VAT_RATE))))))
                  "vat_inclusive" (.bool true))
            else
              .ok (aset (aset (aset answers "amount" (.num (round2 entered_amount)))
                    "tax_amount" (.num (round2 (tax_amount.getD
                      (entered_amount * DEFAULT_VAT_RATE)))))
                  "vat_inclusive" (.bool false))

/-! ## The persisted invoice and the review-resolution endpoint -/

/-- The answer-settable data columns of the `invoices` table. -/
inductive DataField where
  | date | vendor | amount | currency | tax_amount | category
  | payment_method | transaction_type | is_paid | notes
  | ocr_confidence | extraction_confidence
deriving Repr, DecidableEq

/-- A persisted invoice row (`apps/api/models/invoice_model.py`). The data
columns are dynamically typed in SQLite and are written raw by
`setattr`, so they are modelled as `JValue`. `review_questions` holds the
JSON-decoded question list (`none` models the NULL column). -/
structure Invoice where
  id : ℤ
  file_original_name : String := ""
  file_new_path : Option String := none
  source : String := "local"
  date : JValue := .null
  vendor : JValue := .null
  amount : JValue := .null
  currency : JValue := .null
  tax_amount : JValue := .null
  category : JValue := .null
  payment_method : JValue := .null
  transaction_type : JValue := .null
  is_paid : JValue := .null
  notes : JValue := .null
  ocr_confidence : JValue := .null
  extraction_confidence : JValue := .null
  status : String := "needs_review"
  review_questions : Option (List Question) := none
  review_reason : Option String := none
deriving Repr, DecidableEq

/-- Read one data column. -/
def getF (inv : Invoice) : DataField → JValue
  | .date => inv.date
  | .vendor => inv.vendor
  | .amount => inv.amount
  | .currency => inv.currency
  | .tax_amount => inv.tax_amount
  | .category => inv.category
  | .payment_method => inv.payment_method
  | .transaction_type => inv.transaction_type
  | .is_paid => inv.is_paid
  | .notes => inv.notes
  | .ocr_confidence => inv.ocr_confidence
  | .extraction_confidence => inv.extraction_confidence

/-- Write one data column. -/
def setF (inv : Invoice) : DataField → JValue → Invoice
  | .date, v => { inv with date := v }
  | .vendor, v => { inv with vendor := v }
  | .amount, v => { inv with amount := v }
  | .currency, v => { inv with currency := v }
  | .tax_amount, v => { inv with tax_amount := v }
  | .category, v => { inv with category := v }
  | .payment_method, v => { inv with payment_method := v }
  | .transaction_type, v => { inv with transaction_type := v }
  | .is_paid, v => { inv with is_paid := v }
  | .notes, v => { inv with notes := v }
  | .ocr_confidence, v => { inv with ocr_confidence := v }
  | .extraction_confidence, v => { inv with extraction_confidence := v }

/-- Column lookup by attribute name. -/
def fieldOfName (k : String) : Option DataField :=
  if k = "date" then some .date
  else if k = "vendor" then some .vendor
  else if k = "amount" then some .amount
  else if k = "currency" then some .currency
  else if k = "tax_amount" then some .tax_amount
  else if k = "category" then some .category
  else if k = "payment_method" then some .payment_method
  else if k = "transaction_type" then some .transaction_type
  else if k = "is_paid" then some .is_paid
  else if k = "notes" then some .notes
  else if k = "ocr_confidence" then some .ocr_confidence
  else if k = "extraction_confidence" then some .extraction_confidence
  else none

/-- Canonical attribute name of a data column. -/
def nameOfField : DataField → String
  | .date => "date"
  | .vendor => "vendor"
  | .amount => "amount"
  | .currency => "currency"
  | .tax_amount => "tax_amount"
  | .category => "category"
  | .payment_method => "payment_method"
  | .transaction_type => "transaction_type"
  | .is_paid => "is_paid"
  | .notes => "notes"
  | .ocr_confidence => "ocr_confidence"
  | .extraction_confidence => "extraction_confidence"

/-- `setattr(invoice, k, v)` guarded by `hasattr`: attribute names outside
the data columns are modelled as no-ops (in `resolve_review` the only such
reachable names are `status`/`review_questions`/`review_reason`, which the
endpoint overwrites afterwards in every run). -/
def setField (inv : Invoice) (k : String) (v : JValue) : Invoice :=
  match fieldOfName k with
  | some f => setF inv f v
  | none => inv

/-- Attribute read by name, `null` outside the data columns. -/
def getField (inv : Invoice) (k : String) : JValue :=
  match fieldOfName k with
  | some f => getF inv f
  | none => .null

/-- View a stored `JValue` column as the typed optional string of
`InvoiceExtraction` (only `None`-ness and string content are consumed). -/
def jStrOpt : JValue → Option String
  | .null => none
  | .str s => some s
  | .bool b => some (if b then "True" else "False")
  | .num q => some (toString q)

/-- View a stored `JValue` column as an optional rational. -/
def jNumOpt : JValue → Option ℚ
  | .num q => some q
  | _ => none

/-- View a stored `JValue` column as the tri-state `is_paid` of the
extraction (only `None`-ness is consumed downstream). -/
def jBoolOpt : JValue → Option Bool
  | .null => none
  | v => some (jtruthy v)

/-- The `InvoiceExtraction(...)` constructed from an invoice row inside
`_get_or_build_review_questions`. -/
def extractionOfInvoice (inv : Invoice) : InvoiceExtraction :=
  { vendor := jStrOpt inv.vendor
    date := jStrOpt inv.date
    amount := jNumOpt inv.amount
    currency := jStrOpt inv.currency
    tax_amount := jNumOpt inv.tax_amount
    category := jStrOpt inv.category
    payment_method := jStrOpt inv.payment_method
    transaction_type := jStrOpt inv.transaction_type
    is_paid := jBoolOpt inv.is_paid
    ocr_confidence := jNumOpt inv.ocr_confidence
    extraction_confidence := jNumOpt inv.extraction_confidence }

/-- The fall-through of `_get_or_build_review_questions` (no usable stored
questions): non-review invoices get an empty list, review invoices get
freshly built questions persisted on the row
(`json.dumps(questions_dicts) if questions_dicts else None`). -/
def get_or_build_rest (inv : Invoice) :
    Option (List Question × Option String × Invoice) :=
  if inv.status ≠ "needs_review" then
    some ([], inv.review_reason, inv)
  else
    match build_review_questions (extractionOfInvoice inv) with
    | none => none
    | some (qs, reason) =>
      some (qs, some reason,
        { inv with
            review_questions := if qs ≠ [] then some qs else none
            review_reason := some reason })

/-- `_get_or_build_review_questions` from `apps/api/routes/invoices.py`.
Returns the questions, the reason, and the invoice row as persisted after
the call (the function commits when it generates questions). A stored
non-empty list is returned as-is; a stored empty list or NULL column falls
through to (re)generation. -/
def get_or_build_review_questions (inv : Invoice) :
    Option (List Question × Option String × Invoice) :=
  match inv.review_questions with
  | some stored =>
    if stored ≠ [] then some (stored, inv.review_reason, inv)
    else get_or_build_rest inv
  | none => get_or_build_rest inv

/-- `ALLOWED_ANSWER_FIELDS` from `apps/api/routes/invoices.py`. -/
def ALLOWED_ANSWER_FIELDS : List String :=
  ["vendor", "date", "amount", "currency", "tax_amount", "category",
   "payment_method", "transaction_type", "is_paid", "notes", "vat_inclusive"]

/-- `_extract_field_names`: the non-empty `field_name`s of a question list. -/
def extract_field_names (qs : List Question) : List String :=
  (qs.map Question.field_name).filter (fun fn => fn ≠ "")

/-- The 400 detail for invalid answer keys, listing the offending keys and
the valid set (Python renders two sets; the key lists are canonicalised
here since Python set ordering is unspecified). -/
def invalid_fields_message (invalid valid : List String) : String :=
  "Invalid fields: " ++ String.intercalate ", " invalid ++
    ". Valid fields are: " ++ String.intercalate ", " valid

/-- The answer-application loop of the endpoint: `setattr` each answered
field, skipping `vat_inclusive`. -/
def applyAnswers (inv : Invoice) (out : AMap) : Invoice :=
  out.foldl (fun acc kv =>
    if kv.1 = "vat_inclusive" then acc else setField acc kv.1 kv.2) inv

/-- The valid answer keys of `resolve_review`: the whitelist, unioned with
the field names of the existing questions when there are any. -/
def valid_fields (existing_questions : List Question) : List String :=
  if existing_questions ≠ [] then
    extract_field_names existing_questions ++ ALLOWED_ANSWER_FIELDS
  else ALLOWED_ANSWER_FIELDS

/-- The invalid answer keys (`set(answers.keys()) - valid_fields`,
canonicalised to first-occurrence order). -/
def invalid_keys (out : AMap) (valid : List String) : List String :=
  ((akeys out).filter (fun k => ¬ valid.contains k)).dedup

/-- The unconditional tail of `resolve_review`: set status ok and clear the
review state. -/
def clear_review (inv : Invoice) : Invoice :=
  { inv with status := "ok", review_questions := none, review_reason := none }

/-- `resolve_review` (POST `/{id}/resolve-review`) from
`apps/api/routes/invoices.py`, for an existing invoice row. Returns the
HTTP outcome (`Except.error` models an `HTTPException` detail) paired with
the database row as it stands after the call — an error raised after the
question-persisting `_get_or_build_review_questions` commit leaves that
commit in place; `none` models the one unreachable crash inside question
building. -/
def resolve_review (inv : Invoice) (answers : AMap) :
    Option (Except String Invoice × Invoice) :=
  if inv.status ≠ "needs_review" then
    some (.error ("Invoice status is '" ++ inv.status ++
      "', not 'needs_review'. Nothing to resolve."), inv)
  else
    match get_or_build_review_questions inv with
    | none => none
    | some (existing_questions, _, inv1) =>
      if answers = ([] : AMap) then
        some (.ok (clear_review inv1), clear_review inv1)
      else
        match normalize_vat answers with
        | .error e => some (.error e, inv1)
        | .ok out =>
          if invalid_keys out (valid_fields existing_questions) ≠ [] then
            some (.error (invalid_fields_message
              (invalid_keys out (valid_fields existing_questions))
              (valid_fields existing_questions)), inv1)
          else
            some (.ok (clear_review (applyAnswers inv1 out)),
              clear_review (applyAnswers inv1 out))

/-! ## Reverse sync from the spreadsheet mirror -/

/-- One row pulled from the spreadsheet mirror (`ws.get_all_records()`):
text cells default to the empty string, the dynamically-typed cells are
scalars. -/
structure SheetRecord where
  id : ℤ
  vendor : String := ""
  tax_amount : JValue := .str ""
  category : String := ""
  payment_method : String := ""
  transaction_type : String := ""
  is_paid : JValue := .str ""
  notes : String := ""
deriving Repr, DecidableEq

/-- The vendor update of `sync_from_sheets_to_db`:
`(record.get("vendor") or "").strip() or None`, written when different. -/
def sync_vendor (rec : SheetRecord) (dbi : Invoice) : Invoice :=
  if (if rec.vendor.trim = "" then JValue.null else .str rec.vendor.trim) ≠ dbi.vendor then
    { dbi with vendor := if rec.vendor.trim = "" then .null else .str rec.vendor.trim }
  else dbi

/-- The tax_amount update: null/empty/blank cells mean null, other cells
must parse (`float()` failure is swallowed: no update). -/
def sync_tax (rec : SheetRecord) (dbi : Invoice) : Invoice :=
  if rec.tax_amount = .null ∨ rec.tax_amount = .str "" ∨ rec.tax_amount = .str " " then
    if JValue.null ≠ dbi.tax_amount then { dbi with tax_amount := .null } else dbi
  else
    match pyFloat rec.tax_amount with
    | none => dbi
    | some q =>
      if JValue.num q ≠ dbi.tax_amount then { dbi with tax_amount := .num q } else dbi

/-- The category update. -/
def sync_category (rec : SheetRecord) (dbi : Invoice) : Invoice :=
  if (if rec.category.trim = "" then JValue.null else .str rec.category.trim) ≠ dbi.category then
    { dbi with category := if rec.category.trim = "" then .null else .str rec.category.trim }
  else dbi

/-- The payment_method update. -/
def sync_payment (rec : SheetRecord) (dbi : Invoice) : Invoice :=
  if (if rec.payment_method.trim = "" then JValue.null
      else .str rec.payment_method.trim) ≠ dbi.payment_method then
    { dbi with payment_method :=
        if rec.payment_method.trim = "" then .null else .str rec.payment_method.trim }
  else dbi

/-- The transaction_type update. -/
def sync_trans_type (rec : SheetRecord) (dbi : Invoice) : Invoice :=
  if (if rec.transaction_type.trim = "" then JValue.null
      else .str rec.transaction_type.trim) ≠ dbi.transaction_type then
    { dbi with transaction_type :=
        if rec.transaction_type.trim = "" then .null else .str rec.transaction_type.trim }
  else dbi

/-- The sheet cell to 1/0/none coercion for `is_paid`. -/
def sheet_is_paid_int (v : JValue) : Option ℤ :=
  match v with
  | .bool b => some (if b then 1 else 0)
  | .str s => some (if s.toLower = "true" ∨ s.toLower = "yes" ∨ s.toLower = "1" ∨
      s.toLower = "paid" then 1 else 0)
  | .num q => some (if q ≠ 0 then 1 else 0)
  | .null => none

/-- The is_paid update. -/
def sync_is_paid (rec : SheetRecord) (dbi : Invoice) : Invoice :=
  match sheet_is_paid_int rec.is_paid with
  | some i => if JValue.num i ≠ dbi.is_paid then { dbi with is_paid := .num i } else dbi
  | none => dbi

/-- The notes update (only non-empty differing notes flow in). -/
def sync_notes (rec : SheetRecord) (dbi : Invoice) : Invoice :=
  if rec.notes.trim ≠ "" ∧
      rec.notes.trim ≠ (match dbi.notes with | .str s => s | _ => "") then
    { dbi with notes := .str rec.notes.trim }
  else dbi

/-- The per-row merge of `sync_from_sheets_to_db`
(`apps/worker/pipeline/storage.py`): compute the allowlisted updates from a
sheet row and apply them to the matched invoice row (the updates touch
pairwise distinct columns, so the one-shot SQL UPDATE of the source equals
this sequential application). -/
def sync_row (rec : SheetRecord) (dbi : Invoice) : Invoice :=
  sync_notes rec (sync_is_paid rec (sync_trans_type rec (sync_payment rec
    (sync_category rec (sync_tax rec (sync_vendor rec dbi))))))

/-! ## Shared lemmas -/

lemma status_issues_ne_nil_iff (r : InvoiceExtraction) :
    status_issues r ≠ [] ↔
      (r.amount = none ∨ r.date = none ∨ vendor_falsy r.vendor = true ∨
        r.extraction_confidence.getD 0 < 0.6) := by
  unfold status_issues
  by_cases h1 : r.amount = none <;> by_cases h2 : r.date = none <;>
    by_cases h3 : vendor_falsy r.vendor = true <;>
    by_cases h4 : r.extraction_confidence.getD 0 < 0.6 <;>
    simp_all

lemma review_question_items_eq_nil_iff (r : InvoiceExtraction) :
    review_question_items r = [] ↔
      (r.amount ≠ none ∧ r.date ≠ none ∧ vendor_blank r.vendor = false ∧
        r.is_paid ≠ none ∧ r.category ≠ none) := by
  unfold review_question_items
  by_cases h1 : r.amount = none <;> by_cases h2 : r.date = none <;>
    by_cases h3 : vendor_blank r.vendor = true <;>
    by_cases h4 : r.is_paid = none <;> by_cases h5 : r.category = none <;>
    simp_all

lemma review_step_isSome (r : InvoiceExtraction) : (review_step r).isSome := by
  unfold review_step
  split_ifs with h
  · cases ha : r.amount with
    | none =>
      exfalso
      have h2 := h.2
      rw [review_question_items] at h2
      simp [ha] at h2
    | some a => simp
  · simp

/-- The questions of exactly the conditions that hold, in the spec's fixed
priority order, with the last-resort confirm question when no other
condition fired and confidence is below 0.5. Stated from the spec's words
(claim C5) to be compared with `build_review_questions`. -/
def spec_question_list (r : InvoiceExtraction) : List Question :=
  (if r.amount = none then [amountQ] else []) ++
  (if r.date = none then [dateQ] else []) ++
  (if vendor_blank r.vendor then [vendorQ r.vendor] else []) ++
  (if r.is_paid = none then [isPaidQ] else []) ++
  (if r.category = none then [categoryQ] else []) ++
  (if r.amount ≠ none ∧ r.date ≠ none ∧ vendor_blank r.vendor = false ∧
      r.is_paid ≠ none ∧ r.category ≠ none ∧
      r.extraction_confidence.getD 0 < 0.5 then
    [confirmQ (r.amount.getD 0)] else [])

lemma amountQ_ne_vendorQ (v : Option String) : amountQ ≠ vendorQ v := by
  intro h
  have hf := congrArg Question.field_name h
  simp [amountQ, vendorQ] at hf

lemma dateQ_ne_vendorQ (v : Option String) : dateQ ≠ vendorQ v := by
  intro h
  have hf := congrArg Question.field_name h
  simp [dateQ, vendorQ] at hf

lemma aget_cons (p : String × JValue) (t : AMap) (k : String) :
    aget (p :: t) k = if p.1 = k then p.2 else aget t k := by
  unfold aget
  rcases p with ⟨a, b⟩
  by_cases h : a = k <;> simp [List.find?_cons, h]

lemma acontains_cons (p : String × JValue) (t : AMap) (k : String) :
    acontains (p :: t) k = (decide (p.1 = k) || acontains t k) := by
  unfold acontains
  simp [List.any_cons]

lemma aget_aset (m : AMap) (k : String) (v : JValue) (k' : String) :
    aget (aset m k v) k' = if k' = k then v else aget m k' := by
  induction m with
  | nil =>
    show aget [(k, v)] k' = _
    rw [aget_cons]
    by_cases h : k' = k
    · rw [if_pos h.symm, if_pos h]
    · rw [if_neg (fun hh => h hh.symm), if_neg h]
  | cons p t ih =>
    rcases p with ⟨a, b⟩
    by_cases ha : a = k
    · show aget (if (a, b).1 = k then (k, v) :: t else (a, b) :: aset t k v) k' = _
      rw [if_pos ha, aget_cons, aget_cons]
      by_cases h : k' = k
      · rw [if_pos h.symm, if_pos h]
      · rw [if_neg (fun hh => h hh.symm), if_neg h, if_neg (by rw [ha]; exact fun hh => h hh.symm)]
    · show aget (if (a, b).1 = k then (k, v) :: t else (a, b) :: aset t k v) k' = _
      rw [if_neg ha, aget_cons, ih]
      by_cases h : k' = k
      · rw [if_pos h, if_pos h, if_neg (by subst h; exact fun hh => ha hh)]
      · rw [if_neg h, if_neg h, aget_cons]

lemma acontains_aset (m : AMap) (k : String) (v : JValue) (k' : String) :
    acontains (aset m k v) k' = (decide (k' = k) || acontains m k') := by
  induction m with
  | nil =>
    show acontains [(k, v)] k' = _
    rw [acontains_cons]
    unfold acontains
    by_cases h : k' = k
    · simp [h]
    · have h2 : ¬ k = k' := fun hh => h hh.symm
      simp [h, h2]
  | cons p t ih =>
    rcases p with ⟨a, b⟩
    by_cases ha : a = k
    · show acontains (if (a, b).1 = k then (k, v) :: t else (a, b) :: aset t k v) k' = _
      rw [if_pos ha, acontains_cons, acontains_cons]
      subst ha
      by_cases h : k' = a <;> simp [h, eq_comm]
    · show acontains (if (a, b).1 = k then (k, v) :: t else (a, b) :: aset t k v) k' = _
      rw [if_neg ha, acontains_cons, acontains_cons, ih]
      by_cases h : k' = k <;> by_cases hak : a = k' <;> simp [h, hak]

lemma mem_akeys_iff_acontains (m : AMap) (k : String) :
    k ∈ akeys m ↔ acontains m k = true := by
  induction m with
  | nil => simp [akeys, acontains]
  | cons p t ih =>
    rw [acontains_cons]
    rcases p with ⟨a, b⟩
    unfold akeys at *
    rw [List.map_cons, List.mem_cons]
    simp only [Bool.or_eq_true, decide_eq_true_eq]
    rw [ih]
    constructor
    · rintro (h | h)
      · exact Or.inl h.symm
      · exact Or.inr h
    · rintro (h | h)
      · exact Or.inl h.symm
      · exact Or.inr h

lemma akeys_aset (m : AMap) (k : String) (v : JValue) :
    akeys (aset m k v) = if acontains m k then akeys m else akeys m ++ [k] := by
  induction m with
  | nil => simp [aset, akeys, acontains]
  | cons p t ih =>
    rcases p with ⟨a, b⟩
    rw [acontains_cons]
    by_cases ha : a = k
    · show akeys (if (a, b).1 = k then (k, v) :: t else (a, b) :: aset t k v) = _
      rw [if_pos ha]
      simp [ha, akeys]
    · show akeys (if (a, b).1 = k then (k, v) :: t else (a, b) :: aset t k v) = _
      rw [if_neg ha]
      unfold akeys at *
      rw [List.map_cons, List.map_cons, ih]
      by_cases hc : acontains t k = true <;> simp [ha, hc]

lemma nodup_akeys_aset (m : AMap) (k : String) (v : JValue)
    (h : (akeys m).Nodup) : (akeys (aset m k v)).Nodup := by
  rw [akeys_aset]
  split_ifs with hc
  · exact h
  · rw [List.nodup_append]
    refine ⟨h, List.nodup_singleton k, fun x hx => ?_⟩
    simp only [List.mem_singleton]
    intro hx2
    subst hx2
    exact absurd ((mem_akeys_iff_acontains m x).mp hx) (by simp_all)

/-! ## Claims -/

/-- C1: For every input record, the status classifier returns needs_review
iff amount is null, or date is null, or vendor is falsy, or confidence
(null read as 0.0) is below 0.6, or lies in [0.6, 0.75); otherwise it
returns ok with an empty reason string. -/
theorem classifier_needs_review_iff (r : InvoiceExtraction) :
    ((determine_status r).1 = .needs_review ↔
      (r.amount = none ∨ r.date = none ∨ vendor_falsy r.vendor = true ∨
        r.extraction_confidence.getD 0 < 0.6 ∨
        ((0.6:ℚ) ≤ r.extraction_confidence.getD 0 ∧
          r.extraction_confidence.getD 0 < 0.75))) ∧
    ((determine_status r).1 ≠ .needs_review → determine_status r = (.ok, "")) := by
  have hiss := status_issues_ne_nil_iff r
  unfold determine_status
  split_ifs with h h2
  · refine ⟨⟨fun _ => ?_, fun _ => rfl⟩, by simp⟩
    rcases hiss.mp h with h' | h' | h' | h' <;> tauto
  · have hno : ¬(r.amount = none ∨ r.date = none ∨ vendor_falsy r.vendor = true ∨
        r.extraction_confidence.getD 0 < 0.6) := fun hd => h (hiss.mpr hd)
    push_neg at hno
    obtain ⟨hA, hB, hC, hD⟩ := hno
    refine ⟨⟨fun hf => absurd hf (by simp), fun hd => ?_⟩, fun _ => rfl⟩
    rcases hd with h' | h' | h' | h' | ⟨_, h5⟩
    · exact absurd h' hA
    · exact absurd h' hB
    · exact absurd h' hC
    · exact absurd h' (not_lt.mpr hD)
    · exact absurd h2 (not_le.mpr h5)
  · have hno : ¬(r.amount = none ∨ r.date = none ∨ vendor_falsy r.vendor = true ∨
        r.extraction_confidence.getD 0 < 0.6) := fun hd => h (hiss.mpr hd)
    push_neg at hno
    refine ⟨⟨fun _ => ?_, fun _ => rfl⟩, by simp⟩
    exact Or.inr (Or.inr (Or.inr (Or.inr ⟨hno.2.2.2, not_le.mp h2⟩)))

/-- A fully-populated high-confidence extraction, classified ok. -/
def rOkSample : InvoiceExtraction :=
  { vendor := some "Acme"
    date := some "2024-01-01"
    amount := some 100
    extraction_confidence := some 0.9 }

/-- Witness for C1 at a concrete ok-classified extraction. -/
theorem classifier_needs_review_iff_witness :
    determine_status rOkSample = (.ok, "") := by
  have hok : (determine_status rOkSample).1 = .ok := by with_unfolding_all rfl
  exact (classifier_needs_review_iff rOkSample).2 (by rw [hok]; intro hcon; cases hcon)

lemma indexOf_amount_lt_vendor (l : List Question) (v : Option String) :
    (amountQ :: l).indexOf amountQ < (amountQ :: l).indexOf (vendorQ v) := by
  rw [List.indexOf_cons_self, List.indexOf_cons_ne _ (amountQ_ne_vendorQ v)]
  exact Nat.succ_pos _

/-- C5: `build_review_questions` returns the questions of exactly the
conditions that hold, in the fixed priority order (amount, date, vendor,
is_paid, category, then the last-resort confirm question), truncated to the
first 4 entries; it never exceeds 4 questions, and when amount and vendor
are both missing the amount question precedes the vendor question. -/
theorem question_generator_priority_cap (r : InvoiceExtraction) :
    ∃ qs reason, build_review_questions r = some (qs, reason) ∧
      qs = (spec_question_list r).take 4 ∧
      qs.length ≤ 4 ∧
      (r.amount = none → vendor_blank r.vendor = true →
        vendorQ r.vendor ∈ qs ∧
          qs.indexOf amountQ < qs.indexOf (vendorQ r.vendor)) := by
  by_cases hC : r.extraction_confidence.getD 0 < 0.5 ∧ review_question_items r = []
  · obtain ⟨hconf, hnil⟩ := hC
    obtain ⟨hA, hB, hV, hP, hK⟩ := (review_question_items_eq_nil_iff r).mp hnil
    obtain ⟨a, ha⟩ := Option.ne_none_iff_exists'.mp hA
    have hspec : spec_question_list r = [confirmQ a] := by
      have hcond : (r.amount ≠ none ∧ r.date ≠ none ∧ vendor_blank r.vendor = false ∧
          r.is_paid ≠ none ∧ r.category ≠ none ∧
          r.extraction_confidence.getD 0 < 0.5) := ⟨hA, hB, hV, hP, hK, hconf⟩
      unfold spec_question_list
      rw [if_pos hcond]
      simp [hA, hB, hV, hP, hK, ha]
    have hbuild : build_review_questions r =
        some ([confirmQ a],
          mkReason (review_reason_items r ++ ["low extraction confidence"])) := by
      have hcond2 : (r.extraction_confidence.getD 0 < 0.5 ∧
          review_question_items r = []) := ⟨hconf, hnil⟩
      unfold build_review_questions review_step
      rw [if_pos hcond2, ha, hnil]
      simp
    exact ⟨[confirmQ a], _, hbuild, by rw [hspec]; simp, by simp,
      fun hcon => absurd hcon hA⟩
  · have hstep : review_step r = some (review_question_items r, review_reason_items r) := by
      unfold review_step
      rw [if_neg hC]
    have hbuild : build_review_questions r =
        some ((review_question_items r).take 4, mkReason (review_reason_items r)) := by
      unfold build_review_questions
      rw [hstep]
    have hspec : spec_question_list r = review_question_items r := by
      have hcond : ¬(r.amount ≠ none ∧ r.date ≠ none ∧ vendor_blank r.vendor = false ∧
          r.is_paid ≠ none ∧ r.category ≠ none ∧
          r.extraction_confidence.getD 0 < 0.5) := fun hand =>
        hC ⟨hand.2.2.2.2.2, (review_question_items_eq_nil_iff r).mpr
          ⟨hand.1, hand.2.1, hand.2.2.1, hand.2.2.2.1, hand.2.2.2.2.1⟩⟩
      unfold spec_question_list review_question_items
      rw [if_neg hcond]
      simp
    refine ⟨(review_question_items r).take 4, mkReason (review_reason_items r), hbuild,
      by rw [hspec], by simp [List.length_take], ?_⟩
    intro hA hV
    unfold review_question_items
    rw [if_pos hA, if_pos hV]
    by_cases hB : r.date = none <;> by_cases hP : r.is_paid = none <;>
      by_cases hK : r.category = none
    · rw [if_pos hB, if_pos hP, if_pos hK]
      have htake : List.take 4
          ([amountQ] ++ [dateQ] ++ [vendorQ r.vendor] ++ [isPaidQ] ++ [categoryQ]) =
          [amountQ, dateQ, vendorQ r.vendor, isPaidQ] := rfl
      rw [htake]
      exact ⟨by simp, indexOf_amount_lt_vendor _ _⟩
    · rw [if_pos hB, if_pos hP, if_neg hK]
      have htake : List.take 4
          ([amountQ] ++ [dateQ] ++ [vendorQ r.vendor] ++ [isPaidQ] ++ []) =
          [amountQ, dateQ, vendorQ r.vendor, isPaidQ] := rfl
      rw [htake]
      exact ⟨by simp, indexOf_amount_lt_vendor _ _⟩
    · rw [if_pos hB, if_neg hP, if_pos hK]
      have htake : List.take 4
          ([amountQ] ++ [dateQ] ++ [vendorQ r.vendor] ++ [] ++ [categoryQ]) =
          [amountQ, dateQ, vendorQ r.vendor, categoryQ] := rfl
      rw [htake]
      exact ⟨by simp, indexOf_amount_lt_vendor _ _⟩
    · rw [if_pos hB, if_neg hP, if_neg hK]
      have htake : List.take 4
          ([amountQ] ++ [dateQ] ++ [vendorQ r.vendor] ++ [] ++ []) =
          [amountQ, dateQ, vendorQ r.vendor] := rfl
      rw [htake]
      exact ⟨by simp, indexOf_amount_lt_vendor _ _⟩
    · rw [if_neg hB, if_pos hP, if_pos hK]
      have htake : List.take 4
          ([amountQ] ++ [] ++ [vendorQ r.vendor] ++ [isPaidQ] ++ [categoryQ]) =
          [amountQ, vendorQ r.vendor, isPaidQ, categoryQ] := rfl
      rw [htake]
      exact ⟨by simp, indexOf_amount_lt_vendor _ _⟩
    · rw [if_neg hB, if_pos hP, if_neg hK]
      have htake : List.take 4
          ([amountQ] ++ [] ++ [vendorQ r.vendor] ++ [isPaidQ] ++ []) =
          [amountQ, vendorQ r.vendor, isPaidQ] := rfl
      rw [htake]
      exact ⟨by simp, indexOf_amount_lt_vendor _ _⟩
    · rw [if_neg hB, if_neg hP, if_pos hK]
      have htake : List.take 4
          ([amountQ] ++ [] ++ [vendorQ r.vendor] ++ [] ++ [categoryQ]) =
          [amountQ, vendorQ r.vendor, categoryQ] := rfl
      rw [htake]
      exact ⟨by simp, indexOf_amount_lt_vendor _ _⟩
    · rw [if_neg hB, if_neg hP, if_neg hK]
      have htake : List.take 4
          ([amountQ] ++ [] ++ [vendorQ r.vendor] ++ [] ++ []) =
          [amountQ, vendorQ r.vendor] := rfl
      rw [htake]
      exact ⟨by simp, indexOf_amount_lt_vendor _ _⟩

/-- An extraction with every field missing. -/
def rAllMissing : InvoiceExtraction := {}

/-- Witness for C5 at an extraction missing both amount and vendor. -/
theorem question_generator_priority_cap_witness :
    ∃ qs reason, build_review_questions rAllMissing = some (qs, reason) ∧
      qs = (spec_question_list rAllMissing).take 4 ∧
      qs.length ≤ 4 ∧
      (vendorQ rAllMissing.vendor ∈ qs ∧
        qs.indexOf amountQ < qs.indexOf (vendorQ rAllMissing.vendor)) := by
  obtain ⟨qs, reason, h1, h2, h3, h4⟩ := question_generator_priority_cap rAllMissing
  exact ⟨qs, reason, h1, h2, h3, h4 rfl rfl⟩

/-- C3: In the VAT-inclusive branch of answer normalization (vat_inclusive
coerces to true, amount coerces to a number, tax_amount not provided), the
entered amount is stored unchanged rounded to 2 decimals and tax_amount is
computed as gross − gross/(1 + 0.05) rounded to 2 decimals. -/
theorem vat_inclusive_branch_values (answers : AMap) (g : ℚ)
    (hvi : coerce_bool (aget answers "vat_inclusive") = some true)
    (hamt : pyFloat (aget answers "amount") = some g)
    (htax : aget answers "tax_amount" = .null ∨ aget answers "tax_amount" = .str "") :
    ∃ out, normalize_vat answers = .ok out ∧
      aget out "amount" = .num (round2 g) ∧
      aget out "tax_amount" = .num (round2 (g - g / (1 + DEFAULT_VAT_RATE))) := by
  have hnotnull : ¬ aget answers "amount" = .null := by
    intro hn
    rw [hn] at hamt
    cases hamt
  have hparse : parse_tax (aget answers "tax_amount") = .ok none := by
    rcases htax with h | h <;> rw [parse_tax, if_neg] <;> simp [h]
  unfold normalize_vat
  rw [hvi, hamt, hparse]
  simp only [reduceCtorEq, and_false, if_false, hnotnull, Option.getD_none, if_true,
    Bool.true_eq]
  refine ⟨_, rfl, by simp [aget_aset], by simp [aget_aset]⟩

/-- The VAT-inclusive round-trip input: amount 105 entered as gross. -/
def ansVatInc : AMap := [("vat_inclusive", .bool true), ("amount", .num 105)]

/-- Witness for C3: amount 105, vat_inclusive true gives tax_amount 5.00
with the amount unchanged at 105.00. -/
theorem vat_inclusive_branch_values_witness :
    ∃ out, normalize_vat ansVatInc = .ok out ∧
      aget out "amount" = .num 105 ∧ aget out "tax_amount" = .num 5 := by
  obtain ⟨out, h1, h2, h3⟩ := vat_inclusive_branch_values ansVatInc 105
    (by with_unfolding_all rfl) (by with_unfolding_all rfl)
    (Or.inl (by with_unfolding_all rfl))
  refine ⟨out, h1, ?_, ?_⟩
  · rw [h2, show round2 (105:ℚ) = 105 from by with_unfolding_all rfl]
  · rw [h3, show round2 ((105:ℚ) - 105 / (1 + DEFAULT_VAT_RATE)) = 5 from by
      with_unfolding_all rfl]

/-- C4: In the VAT-exclusive branch (vat_inclusive coerces to false, amount
coerces to a number, tax_amount not provided), tax_amount is computed as
net × 0.05 rounded to 2 decimals and the stored amount is the entered net
amount rounded to 2 decimals — not re-grossed to net plus tax. -/
theorem vat_exclusive_branch_values (answers : AMap) (net : ℚ)
    (hvi : coerce_bool (aget answers "vat_inclusive") = some false)
    (hamt : pyFloat (aget answers "amount") = some net)
    (htax : aget answers "tax_amount" = .null ∨ aget answers "tax_amount" = .str "") :
    ∃ out, normalize_vat answers = .ok out ∧
      aget out "amount" = .num (round2 net) ∧
      aget out "tax_amount" = .num (round2 (net * DEFAULT_VAT_RATE)) := by
  have hnotnull : ¬ aget answers "amount" = .null := by
    intro hn
    rw [hn] at hamt
    cases hamt
  have hparse : parse_tax (aget answers "tax_amount") = .ok none := by
    rcases htax with h | h <;> rw [parse_tax, if_neg] <;> simp [h]
  unfold normalize_vat
  rw [hvi, hamt, hparse]
  simp only [reduceCtorEq, and_false, if_false, hnotnull, Option.getD_none, if_true,
    Bool.false_eq_true]
  refine ⟨_, rfl, by simp [aget_aset], by simp [aget_aset]⟩

/-- The VAT-exclusive round-trip input: amount 100 entered as net. -/
def ansVatExc : AMap := [("vat_inclusive", .bool false), ("amount", .num 100)]

/-- Witness for C4: amount 100, vat_inclusive false gives tax_amount 5.00
with the stored amount 100.00. -/
theorem vat_exclusive_branch_values_witness :
    ∃ out, normalize_vat ansVatExc = .ok out ∧
      aget out "amount" = .num 100 ∧ aget out "tax_amount" = .num 5 := by
  obtain ⟨out, h1, h2, h3⟩ := vat_exclusive_branch_values ansVatExc 100
    (by with_unfolding_all rfl) (by with_unfolding_all rfl)
    (Or.inl (by with_unfolding_all rfl))
  refine ⟨out, h1, ?_, ?_⟩
  · rw [h2, show round2 (100:ℚ) = 100 from by with_unfolding_all rfl]
  · rw [h3, show round2 ((100:ℚ) * DEFAULT_VAT_RATE) = 5 from by
      with_unfolding_all rfl]

/-- C10: The question generator is total: for every extraction, including
amount-null ones, `build_review_questions` returns a result — the
confirm-or-correct branch that formats the amount is only reachable when
the question list is empty, which forces amount to be non-null. -/
theorem build_review_questions_total (r : InvoiceExtraction) :
    (build_review_questions r).isSome = true := by
  unfold build_review_questions
  cases hrs : review_step r with
  | none =>
    have hs := review_step_isSome r
    rw [hrs] at hs
    cases hs
  | some p => simp

/-- A medium-confidence, fully-populated extraction: classified
needs_review yet generating zero questions. -/
def rMediumConf : InvoiceExtraction :=
  { vendor := some "Acme Trading"
    date := some "2024-03-15"
    amount := some 100
    currency := some "AED"
    category := some "Office Supplies"
    transaction_type := some "b2b"
    is_paid := some true
    extraction_confidence := some 0.65 }

/-- The pipeline result for `rMediumConf`. -/
def rMediumFinal : InvoiceExtraction :=
  { rMediumConf with
      status := .needs_review
      review_questions := []
      review_reason := some "Needs manual verification" }

/-- C6 counterexample: a record the pipeline classifies needs_review whose
review_questions list is empty (all fields present, confidence 0.65), so
"every extraction classified needs_review carries a non-empty
review_questions list" is false. -/
theorem needs_review_with_empty_questions_counterexample :
    extract_finalize rMediumConf = some rMediumFinal ∧
    rMediumFinal.status = .needs_review ∧
    rMediumFinal.review_questions = [] :=
  ⟨by with_unfolding_all rfl, rfl, rfl⟩

/-- C6 amended: for every record produced by the pipeline, a non-empty
review_questions list only occurs in status needs_review, and an ok record
never carries review_questions; a needs_review record may however carry an
empty question list (e.g. medium confidence with all fields present). -/
theorem nonempty_questions_only_when_needs_review (r r' : InvoiceExtraction)
    (h : extract_finalize r = some r') :
    (r'.review_questions ≠ [] → r'.status = .needs_review) ∧
    (r'.status = .ok → r'.review_questions = []) := by
  unfold extract_finalize at h
  cases hd : (determine_status r).1 with
  | needs_review =>
    rw [hd] at h
    cases hb : build_review_questions r with
    | none => rw [hb] at h; cases h
    | some p =>
      rcases p with ⟨qs, rr⟩
      rw [hb] at h
      injection h with h
      subst h
      exact ⟨fun _ => rfl, fun hok => by cases hok⟩
  | ok =>
    rw [hd] at h
    injection h with h
    subst h
    exact ⟨fun hne => absurd rfl hne, fun _ => rfl⟩
  | error =>
    rw [hd] at h
    injection h with h
    subst h
    exact ⟨fun hne => absurd rfl hne, fun _ => rfl⟩
  | pending =>
    rw [hd] at h
    injection h with h
    subst h
    exact ⟨fun hne => absurd rfl hne, fun _ => rfl⟩
  | processing =>
    rw [hd] at h
    injection h with h
    subst h
    exact ⟨fun hne => absurd rfl hne, fun _ => rfl⟩

/-- The pipeline result for `rAllMissing`. -/
def rAllMissingFinal : InvoiceExtraction :=
  { rAllMissing with
      status := .needs_review
      review_questions := [amountQ, dateQ, vendorQ none, isPaidQ]
      review_reason := some "Needs review: amount missing, date missing, vendor missing (+2 more)" }

/-- Witness for the amended C6 at a concrete all-missing extraction. -/
theorem nonempty_questions_only_when_needs_review_witness :
    (rAllMissingFinal.review_questions ≠ [] → rAllMissingFinal.status = .needs_review) ∧
    (rAllMissingFinal.status = .ok → rAllMissingFinal.review_questions = []) :=
  nonempty_questions_only_when_needs_review rAllMissing rAllMissingFinal (by with_unfolding_all rfl)

/-- The columns of an invoice row that reverse sync must never touch. -/
def frozen_fields (inv : Invoice) :
    ℤ × JValue × JValue × String × Option String × String × JValue × JValue × String ×
      Option (List Question) × Option String :=
  (inv.id, inv.amount, inv.date, inv.file_original_name, inv.file_new_path, inv.source,
    inv.currency, inv.extraction_confidence, inv.status, inv.review_questions,
    inv.review_reason)

lemma sync_vendor_frozen (rec : SheetRecord) (dbi : Invoice) :
    frozen_fields (sync_vendor rec dbi) = frozen_fields dbi := by
  unfold sync_vendor
  split_ifs <;> rfl

lemma sync_tax_frozen (rec : SheetRecord) (dbi : Invoice) :
    frozen_fields (sync_tax rec dbi) = frozen_fields dbi := by
  unfold sync_tax
  by_cases h1 : (rec.tax_amount = .null ∨ rec.tax_amount = .str "" ∨ rec.tax_amount = .str " ")
  · rw [if_pos h1]
    split_ifs <;> rfl
  · rw [if_neg h1]
    cases hp : pyFloat rec.tax_amount
    · rfl
    · dsimp only
      split_ifs <;> rfl

lemma sync_category_frozen (rec : SheetRecord) (dbi : Invoice) :
    frozen_fields (sync_category rec dbi) = frozen_fields dbi := by
  unfold sync_category
  split_ifs <;> rfl

lemma sync_payment_frozen (rec : SheetRecord) (dbi : Invoice) :
    frozen_fields (sync_payment rec dbi) = frozen_fields dbi := by
  unfold sync_payment
  split_ifs <;> rfl

lemma sync_trans_type_frozen (rec : SheetRecord) (dbi : Invoice) :
    frozen_fields (sync_trans_type rec dbi) = frozen_fields dbi := by
  unfold sync_trans_type
  split_ifs <;> rfl

lemma sync_is_paid_frozen (rec : SheetRecord) (dbi : Invoice) :
    frozen_fields (sync_is_paid rec dbi) = frozen_fields dbi := by
  unfold sync_is_paid
  cases hp : sheet_is_paid_int rec.is_paid
  · rfl
  · dsimp only
    split_ifs <;> rfl

lemma sync_notes_frozen (rec : SheetRecord) (dbi : Invoice) :
    frozen_fields (sync_notes rec dbi) = frozen_fields dbi := by
  unfold sync_notes
  split_ifs <;> rfl

/-- C9: Reverse sync from the mirror store modifies only the allowlisted
fields (vendor, tax_amount, category, payment_method, transaction_type,
is_paid, notes); for every mirror row and every record, amount, date, id
and the file paths are left unchanged. -/
theorem sync_preserves_protected_fields (rec : SheetRecord) (dbi : Invoice) :
    (sync_row rec dbi).amount = dbi.amount ∧
    (sync_row rec dbi).date = dbi.date ∧
    (sync_row rec dbi).id = dbi.id ∧
    (sync_row rec dbi).file_original_name = dbi.file_original_name ∧
    (sync_row rec dbi).file_new_path = dbi.file_new_path := by
  have hall : frozen_fields (sync_row rec dbi) = frozen_fields dbi := by
    unfold sync_row
    rw [sync_notes_frozen, sync_is_paid_frozen, sync_trans_type_frozen,
      sync_payment_frozen, sync_category_frozen, sync_tax_frozen, sync_vendor_frozen]
  simp only [frozen_fields, Prod.mk.injEq] at hall
  exact ⟨hall.2.1, hall.2.2.1, hall.1, hall.2.2.2.1, hall.2.2.2.2.1⟩

/-- Second-call behaviour of `_get_or_build_review_questions` after a
fall-through first call: the persisted row is a fixpoint. -/
lemma gob_rest_case (inv : Invoice) (qs : List Question) (r : Option String) (inv1 : Invoice)
    (hq : inv.review_questions = none ∨ inv.review_questions = some [])
    (hrest : get_or_build_rest inv = some (qs, r, inv1)) :
    get_or_build_review_questions inv1 = some (qs, r, inv1) := by
  unfold get_or_build_rest at hrest
  by_cases hst : inv.status ≠ "needs_review"
  · rw [if_pos hst] at hrest
    simp only [Option.some.injEq, Prod.mk.injEq] at hrest
    obtain ⟨h1, h2, h3⟩ := hrest
    subst h3
    rw [← h1, ← h2]
    unfold get_or_build_review_questions
    rcases hq with hq | hq <;> rw [hq]
    · unfold get_or_build_rest
      rw [if_pos hst]
    · dsimp only
      rw [if_neg (by simp : ¬ (([] : List Question) ≠ []))]
      unfold get_or_build_rest
      rw [if_pos hst]
  · rw [if_neg hst] at hrest
    push_neg at hst
    cases hb : build_review_questions (extractionOfInvoice inv) with
    | none => rw [hb] at hrest; cases hrest
    | some p =>
      rcases p with ⟨qs2, reason⟩
      rw [hb] at hrest
      simp only [Option.some.injEq, Prod.mk.injEq] at hrest
      obtain ⟨h1, h2, h3⟩ := hrest
      subst h3
      rw [← h1, ← h2]
      by_cases hqs : qs2 ≠ []
      · rw [if_pos hqs]
        unfold get_or_build_review_questions
        dsimp only
        rw [if_pos hqs]
      · push_neg at hqs
        subst hqs
        rw [if_neg (by simp : ¬ (([] : List Question) ≠ []))]
        unfold get_or_build_review_questions
        dsimp only
        unfold get_or_build_rest
        have hst2 : ¬ (({ inv with review_questions := none, review_reason := some reason } : Invoice).status ≠ "needs_review") := by simp [hst]
        rw [if_neg hst2]
        have hext : extractionOfInvoice ({ inv with review_questions := none, review_reason := some reason } : Invoice) = extractionOfInvoice inv := rfl
        rw [hext, hb]
        simp

/-- C8: `get_or_build_questions` is idempotent: whatever a call returns and
persists, an immediately repeated call returns the same question list (and
reason) without changing the row — a persisted non-empty list is read back,
and the zero-question edge case regenerates identically. -/
theorem get_or_build_idempotent (inv : Invoice) (qs : List Question) (r : Option String) (inv1 : Invoice)
    (h : get_or_build_review_questions inv = some (qs, r, inv1)) :
    get_or_build_review_questions inv1 = some (qs, r, inv1) := by
  unfold get_or_build_review_questions at h
  cases hrq : inv.review_questions with
  | some stored =>
    rw [hrq] at h
    dsimp only at h
    by_cases hs : stored ≠ []
    · rw [if_pos hs] at h
      simp only [Option.some.injEq, Prod.mk.injEq] at h
      obtain ⟨h1, h2, h3⟩ := h
      subst h3
      rw [← h1, ← h2]
      unfold get_or_build_review_questions
      rw [hrq]
      dsimp only
      rw [if_pos hs]
    · push_neg at hs
      subst hs
      rw [if_neg (by simp : ¬ (([] : List Question) ≠ []))] at h
      exact gob_rest_case inv qs r inv1 (Or.inr hrq) h
  | none =>
    rw [hrq] at h
    dsimp only at h
    exact gob_rest_case inv qs r inv1 (Or.inl hrq) h

/-- A fresh needs_review invoice row with nothing persisted. -/
def invReview : Invoice := { id := 1, status := "needs_review" }

/-- The questions generated for `invReview` (all fields missing, cap 4). -/
def reviewQs : List Question := [amountQ, dateQ, vendorQ none, isPaidQ]

/-- The reason generated for `invReview`. -/
def reviewReason : String :=
  "Needs review: amount missing, date missing, vendor missing (+2 more)"

/-- The row as persisted by the first `get_or_build` call on `invReview`. -/
def invReview1 : Invoice :=
  { invReview with review_questions := some reviewQs, review_reason := some reviewReason }

/-- Witness for C8 at a concrete needs_review row. -/
theorem get_or_build_idempotent_witness :
    get_or_build_review_questions invReview1 =
      some (reviewQs, some reviewReason, invReview1) :=
  get_or_build_idempotent invReview reviewQs (some reviewReason) invReview1
    (by with_unfolding_all rfl)

lemma fieldOfName_nameOfField (f : DataField) : fieldOfName (nameOfField f) = some f := by
  cases f <;> simp [fieldOfName, nameOfField]

lemma fieldOfName_some (k : String) (f : DataField) (h : fieldOfName k = some f) :
    k = nameOfField f := by
  unfold fieldOfName at h
  by_cases h1 : k = "date"
  · rw [if_pos h1] at h
    injection h with h
    subst h
    exact h1
  · rw [if_neg h1] at h
    by_cases h2 : k = "vendor"
    · rw [if_pos h2] at h
      injection h with h
      subst h
      exact h2
    · rw [if_neg h2] at h
      by_cases h3 : k = "amount"
      · rw [if_pos h3] at h
        injection h with h
        subst h
        exact h3
      · rw [if_neg h3] at h
        by_cases h4 : k = "currency"
        · rw [if_pos h4] at h
          injection h with h
          subst h
          exact h4
        · rw [if_neg h4] at h
          by_cases h5 : k = "tax_amount"
          · rw [if_pos h5] at h
            injection h with h
            subst h
            exact h5
          · rw [if_neg h5] at h
            by_cases h6 : k = "category"
            · rw [if_pos h6] at h
              injection h with h
              subst h
              exact h6
            · rw [if_neg h6] at h
              by_cases h7 : k = "payment_method"
              · rw [if_pos h7] at h
                injection h with h
                subst h
                exact h7
              · rw [if_neg h7] at h
                by_cases h8 : k = "transaction_type"
                · rw [if_pos h8] at h
                  injection h with h
                  subst h
                  exact h8
                · rw [if_neg h8] at h
                  by_cases h9 : k = "is_paid"
                  · rw [if_pos h9] at h
                    injection h with h
                    subst h
                    exact h9
                  · rw [if_neg h9] at h
                    by_cases h10 : k = "notes"
                    · rw [if_pos h10] at h
                      injection h with h
                      subst h
                      exact h10
                    · rw [if_neg h10] at h
                      by_cases h11 : k = "ocr_confidence"
                      · rw [if_pos h11] at h
                        injection h with h
                        subst h
                        exact h11
                      · rw [if_neg h11] at h
                        by_cases h12 : k = "extraction_confidence"
                        · rw [if_pos h12] at h
                          injection h with h
                          subst h
                          exact h12
                        · rw [if_neg h12] at h
                          cases h

lemma nameOfField_ne_vat (f : DataField) : nameOfField f ≠ "vat_inclusive" := by
  cases f <;> simp [nameOfField]

lemma getF_setF_self (inv : Invoice) (f : DataField) (v : JValue) :
    getF (setF inv f v) f = v := by
  cases f <;> rfl

lemma getF_setF_ne (inv : Invoice) (f f' : DataField) (v : JValue) (h : f ≠ f') :
    getF (setF inv f' v) f = getF inv f := by
  cases f <;> cases f' <;> first | rfl | exact absurd rfl h

lemma setF_frame (inv : Invoice) (f : DataField) (v : JValue) :
    (setF inv f v).status = inv.status ∧
    (setF inv f v).review_questions = inv.review_questions ∧
    (setF inv f v).review_reason = inv.review_reason ∧
    (setF inv f v).id = inv.id ∧
    (setF inv f v).file_original_name = inv.file_original_name ∧
    (setF inv f v).file_new_path = inv.file_new_path := by
  cases f <;> exact ⟨rfl, rfl, rfl, rfl, rfl, rfl⟩

lemma getF_setField_ne (inv : Invoice) (k : String) (v : JValue) (f : DataField)
    (h : k ≠ nameOfField f) : getF (setField inv k v) f = getF inv f := by
  unfold setField
  cases hk : fieldOfName k with
  | none => rfl
  | some f' =>
    dsimp only
    refine getF_setF_ne inv f f' v (fun hf => ?_)
    subst hf
    exact h (fieldOfName_some k f hk)

lemma getF_setField_self (inv : Invoice) (f : DataField) (v : JValue) :
    getF (setField inv (nameOfField f) v) f = v := by
  unfold setField
  rw [fieldOfName_nameOfField]
  exact getF_setF_self inv f v

lemma setField_frame (inv : Invoice) (k : String) (v : JValue) :
    (setField inv k v).status = inv.status ∧
    (setField inv k v).review_questions = inv.review_questions ∧
    (setField inv k v).review_reason = inv.review_reason ∧
    (setField inv k v).id = inv.id ∧
    (setField inv k v).file_original_name = inv.file_original_name ∧
    (setField inv k v).file_new_path = inv.file_new_path := by
  unfold setField
  cases hk : fieldOfName k with
  | none => exact ⟨rfl, rfl, rfl, rfl, rfl, rfl⟩
  | some f' => exact setF_frame inv f' v

lemma getF_clear_review (inv : Invoice) (f : DataField) :
    getF (clear_review inv) f = getF inv f := by
  cases f <;> rfl

lemma applyAnswers_cons (inv : Invoice) (p : String × JValue) (t : AMap) :
    applyAnswers inv (p :: t) =
      applyAnswers (if p.1 = "vat_inclusive" then inv else setField inv p.1 p.2) t := by
  unfold applyAnswers
  rw [List.foldl_cons]

lemma getF_applyAnswers_not_mem (out : AMap) (inv : Invoice) (f : DataField)
    (h : acontains out (nameOfField f) = false) :
    getF (applyAnswers inv out) f = getF inv f := by
  induction out generalizing inv with
  | nil => rfl
  | cons p t ih =>
    rw [acontains_cons] at h
    simp only [Bool.or_eq_false_iff, decide_eq_false_iff_not] at h
    rw [applyAnswers_cons]
    by_cases hv : p.1 = "vat_inclusive"
    · rw [if_pos hv]
      exact ih inv h.2
    · rw [if_neg hv]
      rw [ih _ h.2]
      exact getF_setField_ne inv p.1 p.2 f (fun he => h.1 he)

lemma getF_applyAnswers_mem (out : AMap) (inv : Invoice) (f : DataField)
    (hnd : (akeys out).Nodup)
    (h : acontains out (nameOfField f) = true) :
    getF (applyAnswers inv out) f = aget out (nameOfField f) := by
  induction out generalizing inv with
  | nil => cases h
  | cons p t ih =>
    rcases p with ⟨a, b⟩
    rw [aget_cons, applyAnswers_cons]
    unfold akeys at hnd
    rw [List.map_cons, List.nodup_cons] at hnd
    by_cases ha : a = nameOfField f
    · subst ha
      rw [if_pos rfl]
      have hnotmem : acontains t (nameOfField f) = false := by
        by_cases hc : acontains t (nameOfField f) = true
        · exact absurd ((mem_akeys_iff_acontains t (nameOfField f)).mpr hc) hnd.1
        · simpa using hc
      rw [if_neg (nameOfField_ne_vat f)]
      rw [getF_applyAnswers_not_mem t _ f hnotmem]
      exact getF_setField_self inv f b
    · rw [if_neg ha]
      rw [acontains_cons] at h
      simp only [Bool.or_eq_true, decide_eq_true_eq] at h
      rcases h with h | h
      · exact absurd h ha
      · by_cases hv : a = "vat_inclusive"
        · rw [if_pos hv]
          exact ih inv hnd.2 h
        · rw [if_neg hv]
          exact ih _ hnd.2 h

lemma applyAnswers_frame (out : AMap) (inv : Invoice) :
    (applyAnswers inv out).status = inv.status ∧
    (applyAnswers inv out).review_questions = inv.review_questions ∧
    (applyAnswers inv out).review_reason = inv.review_reason ∧
    (applyAnswers inv out).id = inv.id ∧
    (applyAnswers inv out).file_original_name = inv.file_original_name ∧
    (applyAnswers inv out).file_new_path = inv.file_new_path := by
  induction out generalizing inv with
  | nil => exact ⟨rfl, rfl, rfl, rfl, rfl, rfl⟩
  | cons p t ih =>
    rw [applyAnswers_cons]
    by_cases hv : p.1 = "vat_inclusive"
    · rw [if_pos hv]
      exact ih inv
    · rw [if_neg hv]
      obtain ⟨s1, s2, s3, s4, s5, s6⟩ := setField_frame inv p.1 p.2
      obtain ⟨a1, a2, a3, a4, a5, a6⟩ := ih (setField inv p.1 p.2)
      exact ⟨a1.trans s1, a2.trans s2, a3.trans s3, a4.trans s4, a5.trans s5, a6.trans s6⟩

lemma review_update_frame (inv : Invoice) (a : Option (List Question)) (b : Option String) (f : DataField) :
    getF ({ inv with review_questions := a, review_reason := b } : Invoice) f = getF inv f := by
  cases f <;> rfl

lemma gob_rest_frame (inv : Invoice) (eq : List Question) (rr : Option String) (inv1 : Invoice)
    (h : get_or_build_rest inv = some (eq, rr, inv1)) :
    (∀ f : DataField, getF inv1 f = getF inv f) ∧
    inv1.status = inv.status ∧ inv1.id = inv.id ∧
    inv1.file_original_name = inv.file_original_name ∧
    inv1.file_new_path = inv.file_new_path := by
  unfold get_or_build_rest at h
  split_ifs at h with h0
  · simp only [Option.some.injEq, Prod.mk.injEq] at h
    obtain ⟨-, -, h3⟩ := h
    subst h3
    exact ⟨fun f => rfl, rfl, rfl, rfl, rfl⟩
  · cases hb : build_review_questions (extractionOfInvoice inv) with
    | none => rw [hb] at h; cases h
    | some p =>
      rcases p with ⟨qs, reason⟩
      rw [hb] at h
      simp only [Option.some.injEq, Prod.mk.injEq] at h
      obtain ⟨-, -, h3⟩ := h
      subst h3
      exact ⟨fun f => review_update_frame inv _ _ f, rfl, rfl, rfl, rfl⟩

lemma gob_frame (inv : Invoice) (eq : List Question) (rr : Option String) (inv1 : Invoice)
    (h : get_or_build_review_questions inv = some (eq, rr, inv1)) :
    (∀ f : DataField, getF inv1 f = getF inv f) ∧
    inv1.status = inv.status ∧ inv1.id = inv.id ∧
    inv1.file_original_name = inv.file_original_name ∧
    inv1.file_new_path = inv.file_new_path := by
  unfold get_or_build_review_questions at h
  cases hrq : inv.review_questions with
  | some stored =>
    rw [hrq] at h
    dsimp only at h
    by_cases hs : stored ≠ []
    · rw [if_pos hs] at h
      simp only [Option.some.injEq, Prod.mk.injEq] at h
      obtain ⟨-, -, h3⟩ := h
      subst h3
      exact ⟨fun f => rfl, rfl, rfl, rfl, rfl⟩
    · rw [if_neg hs] at h
      exact gob_rest_frame inv eq rr inv1 h
  | none =>
    rw [hrq] at h
    dsimp only at h
    exact gob_rest_frame inv eq rr inv1 h

lemma normalize_vat_ok_shape (answers out : AMap) (h : normalize_vat answers = .ok out) :
    out = answers ∨
    (∃ b, out = aset answers "vat_inclusive" (.bool b)) ∨
    (∃ a t b, out = aset (aset (aset answers "amount" a) "tax_amount" t)
      "vat_inclusive" b) := by
  unfold normalize_vat at h
  by_cases h0 : (acontains answers "vat_inclusive" = true ∧
      coerce_bool (aget answers "vat_inclusive") = none)
  · rw [if_pos h0] at h
    cases h
  · rw [if_neg h0] at h
    cases hcb : coerce_bool (aget answers "vat_inclusive") with
    | none =>
      rw [hcb] at h
      dsimp only at h
      injection h with h
      exact Or.inl h.symm
    | some vi =>
      rw [hcb] at h
      dsimp only at h
      by_cases h1 : aget answers "amount" = JValue.null
      · rw [if_pos h1] at h
        injection h with h
        exact Or.inr (Or.inl ⟨vi, h.symm⟩)
      · rw [if_neg h1] at h
        cases hpf : pyFloat (aget answers "amount") with
        | none => rw [hpf] at h; cases h
        | some ea =>
          rw [hpf] at h
          dsimp only at h
          cases hpt : parse_tax (aget answers "tax_amount") with
          | error e => rw [hpt] at h; cases h
          | ok t =>
            rw [hpt] at h
            dsimp only at h
            by_cases h2 : vi = true
            · rw [if_pos h2] at h
              injection h with h
              exact Or.inr (Or.inr ⟨_, _, _, h.symm⟩)
            · rw [if_neg h2] at h
              injection h with h
              exact Or.inr (Or.inr ⟨_, _, _, h.symm⟩)

lemma normalize_vat_ok_nodup (answers out : AMap) (hnd : (akeys answers).Nodup)
    (h : normalize_vat answers = .ok out) : (akeys out).Nodup := by
  rcases normalize_vat_ok_shape answers out h with hs | ⟨b, hs⟩ | ⟨a, t, b, hs⟩ <;> subst hs
  · exact hnd
  · exact nodup_akeys_aset _ _ _ hnd
  · exact nodup_akeys_aset _ _ _ (nodup_akeys_aset _ _ _ (nodup_akeys_aset _ _ _ hnd))

lemma normalize_vat_ok_contains (answers out : AMap) (k : String)
    (h : normalize_vat answers = .ok out)
    (h1 : k ≠ "amount") (h2 : k ≠ "tax_amount") (h3 : k ≠ "vat_inclusive") :
    acontains out k = acontains answers k := by
  rcases normalize_vat_ok_shape answers out h with hs | ⟨b, hs⟩ | ⟨a, t, b, hs⟩ <;> subst hs
  · rfl
  · rw [acontains_aset]
    simp [h3]
  · rw [acontains_aset, acontains_aset, acontains_aset]
    simp [h1, h2, h3]

/-- C2 amended: a successful resolve applies each coerced answered data
field to the record (the vat_inclusive control flag has no column and is
skipped), sets status to ok, clears review_questions and review_reason —
but leaves extraction_confidence unchanged when it was not itself an
answer key: the endpoint never sets it to 0.95 (only the uncalled
service-layer `InvoiceService.resolve_review` does). -/
theorem resolve_applies_answers_and_clears_state (inv : Invoice) (answers : AMap) (fin res : Invoice)
    (hnd : (akeys answers).Nodup)
    (h : resolve_review inv answers = some (.ok fin, res)) :
    res = fin ∧
    fin.status = "ok" ∧ fin.review_questions = none ∧ fin.review_reason = none ∧
    (∀ out, normalize_vat answers = .ok out →
      ∀ f : DataField, acontains out (nameOfField f) = true →
        getF fin f = aget out (nameOfField f)) ∧
    (∀ out, normalize_vat answers = .ok out →
      ∀ f : DataField, acontains out (nameOfField f) = false →
        getF fin f = getF inv f) ∧
    (acontains answers "extraction_confidence" = false →
      getF fin .extraction_confidence = getF inv .extraction_confidence) := by
  unfold resolve_review at h
  by_cases hst : inv.status ≠ "needs_review"
  · rw [if_pos hst] at h
    simp at h
  · rw [if_neg hst] at h
    cases hgob : get_or_build_review_questions inv with
    | none => rw [hgob] at h; cases h
    | some trip =>
      rcases trip with ⟨eq1, rr1, inv1⟩
      rw [hgob] at h
      dsimp only at h
      obtain ⟨hframe, hstat, hid, hfo, hfp⟩ := gob_frame inv eq1 rr1 inv1 hgob
      by_cases hemp : answers = ([] : AMap)
      · rw [if_pos hemp] at h
        simp only [Option.some.injEq, Prod.mk.injEq] at h
        obtain ⟨h1, h2⟩ := h
        injection h1 with h1
        subst h1
        subst hemp
        have hnorm : normalize_vat ([] : AMap) = .ok ([] : AMap) := by
          with_unfolding_all rfl
        refine ⟨h2.symm, rfl, rfl, rfl, ?_, ?_, ?_⟩
        · intro out hout f hc
          rw [hnorm] at hout
          injection hout with hout
          subst hout
          cases hc
        · intro out hout f hcf
          rw [getF_clear_review]
          exact hframe f
        · intro hec
          rw [getF_clear_review]
          exact hframe _
      · rw [if_neg hemp] at h
        cases hnv : normalize_vat answers with
        | error e =>
          rw [hnv] at h
          dsimp only at h
          simp at h
        | ok out1 =>
          rw [hnv] at h
          dsimp only at h
          by_cases hinv : invalid_keys out1 (valid_fields eq1) ≠ []
          · rw [if_pos hinv] at h
            simp at h
          · rw [if_neg hinv] at h
            simp only [Option.some.injEq, Prod.mk.injEq] at h
            obtain ⟨h1, h2⟩ := h
            injection h1 with h1
            subst h1
            refine ⟨h2.symm, rfl, rfl, rfl, ?_, ?_, ?_⟩
            · intro out hout f hc
              injection hout with heq
              subst heq
              rw [getF_clear_review]
              exact getF_applyAnswers_mem out1 inv1 f
                (normalize_vat_ok_nodup answers out1 hnd hnv) hc
            · intro out hout f hcf
              injection hout with heq
              subst heq
              rw [getF_clear_review, getF_applyAnswers_not_mem out1 inv1 f hcf]
              exact hframe f
            · intro hec
              have hcf : acontains out1 "extraction_confidence" = false := by
                rw [normalize_vat_ok_contains answers out1 "extraction_confidence" hnv
                  (by decide) (by decide) (by decide)]
                exact hec
              rw [getF_clear_review,
                getF_applyAnswers_not_mem out1 inv1 DataField.extraction_confidence hcf]
              exact hframe _

/-- A vendor-only answer set. -/
def ansC2 : AMap := [("vendor", .str "Acme")]

/-- A needs_review invoice with stored questions and confidence 0.5. -/
def invC2 : Invoice :=
  { id := 3
    status := "needs_review"
    extraction_confidence := .num 0.5
    review_questions := some [vendorQ none]
    review_reason := some "Needs review: vendor missing" }

/-- The row `resolve_review invC2 ansC2` produces. -/
def finC2 : Invoice :=
  { invC2 with
      vendor := .str "Acme"
      status := "ok"
      review_questions := none
      review_reason := none }

/-- C2 counterexample: a resolve that succeeds (vendor answered) leaves
extraction_confidence at its prior 0.5 — it is not set to the fixed 0.95
the claim states. -/
theorem resolve_confidence_not_bumped_counterexample :
    resolve_review invC2 ansC2 = some (.ok finC2, finC2) ∧
    finC2.extraction_confidence = .num 0.5 ∧ (0.5 : ℚ) ≠ 0.95 :=
  ⟨by with_unfolding_all rfl, rfl, by norm_num⟩

/-- Witness for the amended C2 at a concrete resolve call. -/
theorem resolve_applies_answers_and_clears_state_witness :
    finC2.status = "ok" ∧ finC2.review_questions = none ∧ finC2.review_reason = none ∧
    getF finC2 .vendor = aget ansC2 "vendor" ∧
    getF finC2 .extraction_confidence = getF invC2 .extraction_confidence := by
  obtain ⟨-, h2, h3, h4, h5, -, h7⟩ := resolve_applies_answers_and_clears_state invC2 ansC2 finC2 finC2
    (by simp [akeys, ansC2]) (by with_unfolding_all rfl)
  refine ⟨h2, h3, h4, ?_, h7 (by with_unfolding_all rfl)⟩
  have := h5 ansC2 (by with_unfolding_all rfl) DataField.vendor (by with_unfolding_all rfl)
  exact this

/-- An answer set whose only key is outside every valid field set. -/
def ansBogus : AMap := [("bogus_field", .num 1)]

/-- C7 amended: an answer key outside the whitelist-union fails with a
validation error whose message lists the invalid keys and the valid set,
and the rejected call leaves every data column, the status, the id and the
file paths unchanged; the persisted row may however differ from the
pre-call row in review_questions/review_reason, because the idempotent
question-persisting step commits before validation. -/
theorem validation_error_lists_fields_and_preserves_data (inv : Invoice) (answers : AMap) (eq1 : List Question)
    (rr1 : Option String) (inv1 : Invoice) (out : AMap)
    (hst : inv.status = "needs_review")
    (hgob : get_or_build_review_questions inv = some (eq1, rr1, inv1))
    (hne : answers ≠ ([] : AMap))
    (hnv : normalize_vat answers = .ok out)
    (hbad : invalid_keys out (valid_fields eq1) ≠ []) :
    resolve_review inv answers =
      some (.error (invalid_fields_message (invalid_keys out (valid_fields eq1))
        (valid_fields eq1)), inv1) ∧
    (∀ f : DataField, getF inv1 f = getF inv f) ∧
    inv1.status = inv.status ∧ inv1.id = inv.id ∧
    inv1.file_original_name = inv.file_original_name ∧
    inv1.file_new_path = inv.file_new_path := by
  obtain ⟨hframe, hstat, hid, hfo, hfp⟩ := gob_frame inv eq1 rr1 inv1 hgob
  refine ⟨?_, hframe, hstat, hid, hfo, hfp⟩
  unfold resolve_review
  rw [if_neg (by simp [hst])]
  rw [hgob]
  dsimp only
  rw [if_neg hne, hnv]
  dsimp only
  rw [if_pos hbad]

/-- C7 counterexample: a rejected resolve (only answer key is
"bogus_field") does mutate the record: the question-persisting step that
runs before validation commits review_questions/review_reason, so the row
after the 400 differs from the row before the call. -/
theorem validation_error_mutation_counterexample :
    resolve_review invReview ansBogus =
      some (.error (invalid_fields_message ["bogus_field"]
        (valid_fields reviewQs)), invReview1) ∧
    invReview1 ≠ invReview := by
  refine ⟨by with_unfolding_all rfl, fun h => ?_⟩
  have h2 := congrArg Invoice.review_questions h
  exact Option.noConfusion h2

/-- Witness for the amended C7 at a concrete rejected call. -/
theorem validation_error_lists_fields_and_preserves_data_witness :
    resolve_review invReview ansBogus =
      some (.error (invalid_fields_message
        (invalid_keys ansBogus (valid_fields reviewQs))
        (valid_fields reviewQs)), invReview1) ∧
    getF invReview1 DataField.amount = getF invReview DataField.amount ∧
    invReview1.status = invReview.status := by
  obtain ⟨h1, h2, h3, -, -, -⟩ := validation_error_lists_fields_and_preserves_data invReview ansBogus reviewQs
    (some reviewReason) invReview1 ansBogus rfl (by with_unfolding_all rfl)
    (by simp [ansBogus]) (by with_unfolding_all rfl)
    (by with_unfolding_all (exact fun hcon => List.noConfusion hcon))
  exact ⟨h1, h2 DataField.amount, h3⟩

end InvoiceAI
